import Mathlib

/-!
Verification development for the jaeger-s3 span storage plugin.

The Go sources are shallowly embedded: Go time instants and durations
become integers (nanoseconds), Go maps and the LRU cache become
association lists, fallible calls return Option or Except, and the
effectful wrappers (logging, tracing, AWS clients) are dropped while the
decision logic is kept line for line.
-/

namespace JaegerS3

/-- Go time.Time instants and time.Duration values, as nanoseconds.
t.Before u is t < u, t.Add d is t + d, and the zero time is 0. -/
abbrev Time := Int

/-! ## Association lookup and insert

Models both a Go map access and the hashicorp LRU cache Get and Add used
by the dedupe writer (eviction aside, Get returns the stored value and Add
stores or replaces it). -/

/-- Lookup in an association list, first binding wins. -/
def assocGet {β : Type} (l : List (String × β)) (k : String) : Option β :=
  match l with
  | [] => none
  | (k1, v) :: rest => if k1 = k then some v else assocGet rest k

/-- Insert or replace a binding in an association list. -/
def assocAdd {β : Type} (l : List (String × β)) (k : String) (v : β) :
    List (String × β) :=
  match l with
  | [] => [(k, v)]
  | (k1, v1) :: rest =>
    if k1 = k then (k, v) :: rest else (k1, v1) :: assocAdd rest k v

theorem assocGet_assocAdd_self {β : Type} (l : List (String × β)) (k : String)
    (v : β) : assocGet (assocAdd l k v) k = some v := by
  induction l with
  | nil => simp [assocAdd, assocGet]
  | cons hd tl ih =>
    obtain ⟨k1, v1⟩ := hd
    by_cases h : k1 = k
    · simp [assocAdd, h, assocGet]
    · simp [assocAdd, h, assocGet, ih]

/-! ## Dedupe parquet writer

From plugin/s3spanstore/dedupe_parquet_writer.go.  The wrapped
IParquetWriter is abstracted to its outcome: each call to the model takes
a flag saying whether the wrapped Write call succeeds. -/

/-- The DedupeParquetWriter state: configured durations plus the dedupe
cache mapping a dedupe key to the next accepted write time. -/
structure DedupeParquetWriter where
  dedupeDuration : Time
  dedupeRewriteBufferDuration : Time
  dedupeCache : List (String × Time)
deriving Repr, DecidableEq

/-- Outcome of one DedupeParquetWriter.Write call.  delegated carries the
maxBufferUntil value handed to the wrapped writer; delegated and discarded
both return a nil error, failed propagates the wrapped writer error. -/
inductive WriteResult where
  | delegated (maxBufferUntilCached : Time)
  | discarded
  | failed
deriving Repr, DecidableEq

/-- True when the row reached the wrapped writer successfully. -/
def WriteResult.isDelegated : WriteResult → Bool
  | .delegated _ => true
  | _ => false

/-- DedupeParquetWriter.Write (dedupe_parquet_writer.go lines 41-60).
wrappedOk says whether the wrapped parquetWriter.Write call succeeds. -/
def DedupeParquetWriter.write (w : DedupeParquetWriter) (wrappedOk : Bool)
    (rowTime maxBufferUntil : Time) (key : String) :
    WriteResult × DedupeParquetWriter :=
  match assocGet w.dedupeCache key with
  | some nextWriteTime =>
    if rowTime < nextWriteTime then
      (.discarded, w)
    else
      let maxBufferUntilCached := maxBufferUntil + w.dedupeRewriteBufferDuration
      if wrappedOk then
        (.delegated maxBufferUntilCached,
          { w with
            dedupeCache := assocAdd w.dedupeCache key (rowTime + w.dedupeDuration) })
      else
        (.failed, w)
  | none =>
    let maxBufferUntilCached := maxBufferUntil
    if wrappedOk then
      (.delegated maxBufferUntilCached,
        { w with
          dedupeCache := assocAdd w.dedupeCache key (rowTime + w.dedupeDuration) })
    else
      (.failed, w)

/-- Claim C1: with a succeeding wrapped writer, a row is delegated iff its
key is absent from the dedupe cache or its row time is not earlier than
the cached next accept time; on delegation the cache entry becomes
rowTime + dedupeDuration; otherwise the row is discarded, the state is
unchanged and Write reports success.  Moreover, starting from a state
where the key is absent, two writes of the key with the same row time
yield exactly one delegation, and a third write at
rowTime + dedupeDuration is delegated again. -/
theorem dedupe_write_spec (w : DedupeParquetWriter) (t mbu : Time)
    (k : String) (hdur : 0 < w.dedupeDuration) :
    ((w.write true t mbu k).1.isDelegated = true ↔
      (assocGet w.dedupeCache k = none ∨
        ∃ next, assocGet w.dedupeCache k = some next ∧ next ≤ t)) ∧
    ((w.write true t mbu k).1.isDelegated = true →
      assocGet (w.write true t mbu k).2.dedupeCache k
        = some (t + w.dedupeDuration)) ∧
    ((w.write true t mbu k).1.isDelegated = false →
      (w.write true t mbu k).1 = .discarded ∧ (w.write true t mbu k).2 = w) ∧
    (assocGet w.dedupeCache k = none →
      (w.write true t mbu k).1.isDelegated = true ∧
      (((w.write true t mbu k).2.write true t mbu k).1 = .discarded ∧
        ((w.write true t mbu k).2.write true t mbu k).2
          = (w.write true t mbu k).2) ∧
      ∀ t2 mbu2, t + w.dedupeDuration ≤ t2 →
        (((w.write true t mbu k).2.write true t2 mbu2 k).1.isDelegated
          = true)) := by
  refine ⟨?_, ?_, ?_, ?_⟩
  · constructor
    · intro hdel
      rcases hget : assocGet w.dedupeCache k with _ | next
      · exact Or.inl rfl
      · refine Or.inr ⟨next, rfl, ?_⟩
        by_contra hlt
        push_neg at hlt
        simp [DedupeParquetWriter.write, hget, hlt, WriteResult.isDelegated]
          at hdel
    · intro hcond
      rcases hcond with hget | ⟨next, hget, hle⟩
      · simp [DedupeParquetWriter.write, hget, WriteResult.isDelegated]
      · have hnl : ¬ t < next := not_lt.mpr hle
        simp [DedupeParquetWriter.write, hget, hnl, WriteResult.isDelegated]
  · intro hdel
    rcases hget : assocGet w.dedupeCache k with _ | next
    · simp [DedupeParquetWriter.write, hget, assocGet_assocAdd_self]
    · by_cases hlt : t < next
      · simp [DedupeParquetWriter.write, hget, hlt, WriteResult.isDelegated]
          at hdel
      · simp [DedupeParquetWriter.write, hget, hlt, assocGet_assocAdd_self]
  · intro hnot
    rcases hget : assocGet w.dedupeCache k with _ | next
    · simp [DedupeParquetWriter.write, hget, WriteResult.isDelegated] at hnot
    · by_cases hlt : t < next
      · simp [DedupeParquetWriter.write, hget, hlt]
      · simp [DedupeParquetWriter.write, hget, hlt, WriteResult.isDelegated]
          at hnot
  · intro hget
    have hdel1 :
        w.write true t mbu k =
          (.delegated mbu,
            { w with
              dedupeCache := (assocAdd w.dedupeCache k (t + w.dedupeDuration)) }) := by
      simp [DedupeParquetWriter.write, hget]
    have hc : assocGet (assocAdd w.dedupeCache k (t + w.dedupeDuration)) k
        = some (t + w.dedupeDuration) := assocGet_assocAdd_self _ _ _
    have hlt : t < t + w.dedupeDuration := lt_add_of_pos_right t hdur
    refine ⟨by rw [hdel1]; rfl, ⟨?_, ?_⟩, ?_⟩
    · rw [hdel1]
      simp [DedupeParquetWriter.write, hc, hlt]
    · rw [hdel1]
      simp [DedupeParquetWriter.write, hc, hlt]
    · intro t2 mbu2 hle
      have hnl : ¬ t2 < t + w.dedupeDuration := not_lt.mpr hle
      rw [hdel1]
      simp [DedupeParquetWriter.write, hc, hnl, WriteResult.isDelegated]

/-- Witness for dedupe_write_spec at a concrete writer state. -/
theorem dedupe_write_spec_witness :
    (0 : Time) < (1000 : Time) ∧
    (((⟨1000, 50, []⟩ : DedupeParquetWriter).write true 7 3 "svc/op/kind").1.isDelegated
        = true ↔
      (assocGet ([] : List (String × Time)) "svc/op/kind" = none ∨
        ∃ next, assocGet ([] : List (String × Time)) "svc/op/kind" = some next ∧
          next ≤ 7)) := by
  have h := dedupe_write_spec (⟨1000, 50, []⟩ : DedupeParquetWriter) 7 3
    "svc/op/kind" (by norm_num)
  exact ⟨by norm_num, h.1⟩

/-- Claim C10: if the wrapped writer fails, the error is propagated, the
dedupe cache entry for the key is left untouched, and a retry of the very
same row with a now succeeding wrapped writer is delegated rather than
discarded. -/
theorem dedupe_write_failure (w : DedupeParquetWriter) (t mbu : Time)
    (k : String)
    (hacc : assocGet w.dedupeCache k = none ∨
      ∃ next, assocGet w.dedupeCache k = some next ∧ next ≤ t) :
    (w.write false t mbu k).1 = .failed ∧
    (w.write false t mbu k).2 = w ∧
    (((w.write false t mbu k).2.write true t mbu k).1.isDelegated = true) := by
  rcases hacc with hget | ⟨next, hget, hle⟩
  · refine ⟨?_, ?_, ?_⟩
    · simp [DedupeParquetWriter.write, hget]
    · simp [DedupeParquetWriter.write, hget]
    · simp [DedupeParquetWriter.write, hget, WriteResult.isDelegated]
  · have hnl : ¬ t < next := not_lt.mpr hle
    refine ⟨?_, ?_, ?_⟩
    · simp [DedupeParquetWriter.write, hget, hnl]
    · simp [DedupeParquetWriter.write, hget, hnl]
    · simp [DedupeParquetWriter.write, hget, hnl, WriteResult.isDelegated]

/-- Witness for dedupe_write_failure at a concrete writer state. -/
theorem dedupe_write_failure_witness :
    ((⟨1000, 50, []⟩ : DedupeParquetWriter).write false 7 3 "svc/op/kind").1
        = .failed ∧
    ((⟨1000, 50, []⟩ : DedupeParquetWriter).write false 7 3 "svc/op/kind").2
        = (⟨1000, 50, []⟩ : DedupeParquetWriter) ∧
    ((((⟨1000, 50, []⟩ : DedupeParquetWriter).write false 7 3
        "svc/op/kind").2.write true 7 3 "svc/op/kind").1.isDelegated = true) :=
  dedupe_write_failure (⟨1000, 50, []⟩ : DedupeParquetWriter) 7 3 "svc/op/kind"
    (Or.inl rfl)

/-! ## Athena query cache

From plugin/s3spanstore/athena_query_cache.go.  Lookup runs a page
fetcher and a lookup worker; the fetcher turns the paginated
ListQueryExecutions stream into chunks of execution ids and the worker
consumes chunks, resolving ids to execution metadata with one
BatchGetQueryExecution call per chunk.  The embedding collapses the
id-to-metadata indirection: a chunk is given directly as the list of
execution metadata records the batch call would produce, and lookup is
applied to the list of chunks the fetcher would deliver in order.  The
BatchGetQueryExecution failure paths (request error, unprocessed ids) are
not modelled: they make the whole Lookup fail and no claim is about
them. -/

/-- Relevant fields of an Athena types.QueryExecution. -/
structure QueryExecution where
  queryExecutionId : String
  query : String
  state : String
  submissionDateTime : Time
deriving Repr, DecidableEq

/-- Go strings.HasPrefix on character lists. -/
def listStartsWith : List Char → List Char → Bool
  | [], _ => true
  | _ :: _, [] => false
  | p :: ps, c :: cs => p = c && listStartsWith ps cs

/-- Whether pat occurs as a contiguous run inside s. -/
def listContainsRun (pat : List Char) : List Char → Bool
  | [] => listStartsWith pat []
  | c :: cs => listStartsWith pat (c :: cs) || listContainsRun pat cs

/-- Go strings.Contains(s, pat). -/
def strContains (s pat : String) : Bool :=
  listContainsRun pat.toList s.toList

/-- The worker loop over one metadata batch (athena_query_cache.go lines
100-120).  Returns the value left in latestQueryExecution together with
the flag saying whether fetchCancelFunc was invoked during the loop.  An
expired execution requests cancellation and the loop continues; a failed
or cancelled execution is skipped; a query containing the key is recorded
and stops the loop. -/
def processExecutions (ttlTime : Time) (key : String) :
    List QueryExecution → Option QueryExecution × Bool
  | [] => (none, false)
  | v :: rest =>
    if v.submissionDateTime < ttlTime then
      ((processExecutions ttlTime key rest).1, true)
    else if v.state = "FAILED" || v.state = "CANCELLED" then
      processExecutions ttlTime key rest
    else if strContains v.query key then
      (some v, true)
    else
      processExecutions ttlTime key rest

/-- AthenaQueryCache.Lookup (athena_query_cache.go lines 27-133) on the
chunks the page fetcher delivers.  The worker body (lines 73-126) is a
single select with no enclosing loop: it receives at most one chunk.  An
absent chunk (closed channel) or an empty first chunk cancels the search
and leaves latestQueryExecution nil; otherwise the first chunk is scanned
and its result is returned.  Chunks after the first are never examined. -/
def AthenaQueryCache.lookup (ttlTime : Time) (key : String)
    (chunks : List (List QueryExecution)) : Option QueryExecution :=
  match chunks with
  | [] => none
  | chunk :: _ =>
    if chunk.isEmpty then none
    else (processExecutions ttlTime key chunk).1

/-- Claim C2 counterexample: a metadata batch holding an expired
execution followed by a fresh one whose query text contains the key.  The
worker cancels the paginator at the expired entry but keeps scanning the
same batch, so Lookup returns the later match instead of none. -/
theorem lookup_expired_counterexample :
    (⟨"q1", "SELECT 1", "SUCCEEDED", 0⟩ : QueryExecution).submissionDateTime
        < (10 : Time) ∧
    AthenaQueryCache.lookup 10 "FROM t"
        [[⟨"q1", "SELECT 1", "SUCCEEDED", 0⟩,
          ⟨"q2", "SELECT x FROM t WHERE", "SUCCEEDED", 20⟩]]
      = some ⟨"q2", "SELECT x FROM t WHERE", "SUCCEEDED", 20⟩ := by
  constructor
  · decide
  · rfl

/-- Claim C2 (amended): when the worker encounters an execution older
than the TTL boundary it requests cancellation of the listing paginator,
but it continues scanning the remaining entries of the same metadata
batch, so the lookup result is exactly the scan of those remaining
entries; only when none of them matches does Lookup return none. -/
theorem processExecutions_expired (ttlTime : Time) (key : String)
    (v : QueryExecution) (rest : List QueryExecution)
    (h : v.submissionDateTime < ttlTime) :
    processExecutions ttlTime key (v :: rest)
      = ((processExecutions ttlTime key rest).1, true) := by
  simp [processExecutions, h]

/-- Witness for processExecutions_expired on a one-element batch. -/
theorem processExecutions_expired_witness :
    (⟨"q1", "SELECT 1", "SUCCEEDED", 0⟩ : QueryExecution).submissionDateTime
        < (10 : Time) ∧
    processExecutions 10 "FROM t" [⟨"q1", "SELECT 1", "SUCCEEDED", 0⟩]
      = ((processExecutions 10 "FROM t" []).1, true) :=
  ⟨by decide,
    processExecutions_expired 10 "FROM t" ⟨"q1", "SELECT 1", "SUCCEEDED", 0⟩ []
      (by decide)⟩

/-- Claim C3, behavior at the failing input: the worker body is not
wrapped in a loop, so after scanning the first chunk without a match it
returns instead of taking the next chunk.  With a first page that has one
fresh non-matching execution and a second page holding a fresh matching
one, Lookup yields none even though the spec requires the worker to move
on to the second page and return its match. -/
theorem lookup_second_page_never_examined :
    AthenaQueryCache.lookup 0 "FROM t"
        [[⟨"q1", "SELECT 1", "SUCCEEDED", 5⟩],
         [⟨"q2", "SELECT x FROM t WHERE", "SUCCEEDED", 5⟩]]
      = none ∧
    strContains "SELECT x FROM t WHERE" "FROM t" = true ∧
    ¬ (⟨"q2", "SELECT x FROM t WHERE", "SUCCEEDED", 5⟩ :
        QueryExecution).submissionDateTime < (0 : Time) := by
  refine ⟨rfl, by decide, by decide⟩

/-! ## Span payload codec

EncodeSpanPayload is from plugin/s3spanstore/writer.go lines 109-132.  Go
byte slices and Go strings are both byte sequences; bytes are modelled as
lists of naturals.  The three library codecs the pipeline composes
(gogo/protobuf Marshal, compress/gzip, encoding/base64) are external to
the repository and appear as parameters; the spanned domain type is
opaque (spec section 1) and appears as a type parameter. -/

/-- A Go byte sequence. -/
abbrev Bytes := List Nat

/-- EncodeSpanPayload: binary-encode, stream-compress, then base-64
(writer.go lines 109-132).  The gzip writer stages (Write, Flush, Close)
are collapsed into one total compression function: their error returns
cannot fire on an in-memory buffer. -/
def EncodeSpanPayload {Span : Type} (protoMarshal : Span → Bytes)
    (gzipCompress : Bytes → Bytes) (base64Encode : Bytes → Bytes)
    (span : Span) : Bytes :=
  base64Encode (gzipCompress (protoMarshal span))

/-- Modelled from the spec: DecodeSpanPayload is called by the reader
(reader.go lines 119 and 238) but its definition is not among the
sources.  Spec section 4.C: the decoder inverts the encode pipeline
exactly, so it base-64 decodes, then decompresses, then binary-decodes,
each stage fallible. -/
def DecodeSpanPayload {Span : Type} (base64Decode : Bytes → Option Bytes)
    (gzipDecompress : Bytes → Option Bytes)
    (protoUnmarshal : Bytes → Option Span) (payload : Bytes) : Option Span :=
  match base64Decode payload with
  | none => none
  | some compressed =>
    match gzipDecompress compressed with
    | none => none
    | some spanBytes => protoUnmarshal spanBytes

/-- Claim C4: whenever each library codec round-trips (the binary
encoder round-trip guarantee, and the losslessness of the compressor and
of base-64), decoding an encoded span payload returns the original
span. -/
theorem decode_encode_span_payload {Span : Type} (protoMarshal : Span → Bytes)
    (gzipCompress : Bytes → Bytes) (base64Encode : Bytes → Bytes)
    (base64Decode : Bytes → Option Bytes)
    (gzipDecompress : Bytes → Option Bytes)
    (protoUnmarshal : Bytes → Option Span)
    (hproto : ∀ s, protoUnmarshal (protoMarshal s) = some s)
    (hgzip : ∀ b, gzipDecompress (gzipCompress b) = some b)
    (hbase64 : ∀ b, base64Decode (base64Encode b) = some b) (span : Span) :
    DecodeSpanPayload base64Decode gzipDecompress protoUnmarshal
      (EncodeSpanPayload protoMarshal gzipCompress base64Encode span)
      = some span := by
  simp [EncodeSpanPayload, DecodeSpanPayload, hbase64, hgzip, hproto]

/-- Witness for decode_encode_span_payload at concrete round-tripping
stage codecs. -/
theorem decode_encode_span_payload_witness :
    @DecodeSpanPayload Nat some some
      (fun b => match b with | [n] => some n | _ => none)
      (EncodeSpanPayload (fun n => [n]) id id 7) = some 7 :=
  decode_encode_span_payload (fun n => [n]) id id some some
    (fun b => match b with | [n] => some n | _ => none)
    (fun _ => rfl) (fun _ => rfl) (fun _ => rfl) 7

/-! ## Query result fetching

Reader.fetchQueryResult (plugin/s3spanstore/reader.go lines 463-487)
concatenates all result pages of a completed Athena query and strips the
leading header row. -/

/-- Reader.fetchQueryResult on the pages the GetQueryResults paginator
returns.  Result rows are opaque. -/
def fetchQueryResult {Row : Type} (pages : List (List Row)) : List Row :=
  let rows := pages.flatten
  if 1 ≤ rows.length then rows.drop 1 else rows

/-- Claim C5: when the engine returned at least one row, the delivered
rows are exactly the engine rows with the leading header row removed, so
one fewer row is delivered than the engine produced; when the first page
is nonempty, the dropped row is precisely the first row of the first
page. -/
theorem fetchQueryResult_drops_header {Row : Type}
    (pages : List (List Row)) (h : pages.flatten ≠ []) :
    fetchQueryResult pages = pages.flatten.tail ∧
    (fetchQueryResult pages).length + 1 = pages.flatten.length ∧
    ∀ p ps, pages = p :: ps → p ≠ [] →
      fetchQueryResult pages = p.tail ++ ps.flatten := by
  have hlen : 1 ≤ pages.flatten.length := by
    cases hf : pages.flatten with
    | nil => exact absurd hf h
    | cons a l => simp
  have hmain : fetchQueryResult pages = pages.flatten.tail := by
    show (if 1 ≤ pages.flatten.length then pages.flatten.drop 1
      else pages.flatten) = pages.flatten.tail
    rw [if_pos hlen, List.drop_one]
  refine ⟨hmain, ?_, ?_⟩
  · rw [hmain]
    cases hf : pages.flatten with
    | nil => exact absurd hf h
    | cons a l => simp
  · intro p ps hpages hp
    rw [hmain, hpages]
    cases p with
    | nil => exact absurd rfl hp
    | cons a l => simp

/-- Witness for fetchQueryResult_drops_header on a two-page result. -/
theorem fetchQueryResult_drops_header_witness :
    ([[1, 2], [3]] : List (List Nat)).flatten ≠ [] ∧
    fetchQueryResult ([[1, 2], [3]] : List (List Nat))
      = ([[1, 2], [3]] : List (List Nat)).flatten.tail :=
  ⟨by decide, (fetchQueryResult_drops_header [[1, 2], [3]] (by decide)).1⟩

/-! ## FindTraces query building

From plugin/s3spanstore/reader.go lines 204-340.  The SQL text is
represented structurally: one constructor per predicate the reader
concatenates into the WHERE clause.  spanstore.TraceQueryParameters is
embedded with times as nanosecond instants (zero time is 0, matching
IsZero) and durations as nanoseconds (the source compares
Duration.String() with the text 0s, which holds exactly for a zero
duration). -/

/-- spanstore.TraceQueryParameters. -/
structure TraceQueryParameters where
  serviceName : String
  operationName : String
  tags : List (String × String)
  startTimeMin : Time
  startTimeMax : Time
  durationMin : Int
  durationMax : Int
  numTraces : Nat
deriving Repr, DecidableEq

/-- One predicate of a WHERE clause built by the reader. -/
inductive Condition where
  | serviceNameEq (p : String)
  | operationNameEq (p : String)
  | tagEq (k v : String)
  | datehourBetween (lo hi : Time)
  | startTimeBetween (lo hi : Time)
  | durationBetween (lo hi : Int)
  | durationGe (lo : Int)
  | durationLe (hi : Int)
  | traceIdIn (ids : List String)
deriving Repr, DecidableEq

/-- The reader configuration fields involved in window computation. -/
structure ReaderCfg where
  maxSpanAge : Time
  maxTraceDuration : Time
deriving Repr, DecidableEq

/-- Reader.DefaultMaxTime: time.Now. -/
def defaultMaxTime (now : Time) : Time := now

/-- Reader.DefaultMinTime: now - maxSpanAge. -/
def defaultMinTime (cfg : ReaderCfg) (now : Time) : Time :=
  now - cfg.maxSpanAge

/-- The start-time defaulting the reader performs on the caller's query
(reader.go lines 306-312 inside findTraceIDs and again lines 215-221 in
FindTraces; the query value is shared through a pointer, so the mutation
is threaded explicitly). -/
def defaultTimeWindow (cfg : ReaderCfg) (now : Time)
    (q : TraceQueryParameters) : TraceQueryParameters :=
  let q1 := if q.startTimeMin = 0 then
      { q with startTimeMin := defaultMinTime cfg now } else q
  if q1.startTimeMax = 0 then
    { q1 with startTimeMax := defaultMaxTime now } else q1

/-- Reader.findTraceIDs condition building (reader.go lines 293-323),
returning the WHERE predicates of the phase-1 query together with the
mutated query parameters. -/
def findTraceIDsConditions (cfg : ReaderCfg) (now : Time)
    (q : TraceQueryParameters) : List Condition × TraceQueryParameters :=
  let conditions := [Condition.serviceNameEq q.serviceName]
  let conditions := if q.operationName ≠ "" then
      conditions ++ [Condition.operationNameEq q.operationName]
    else conditions
  let conditions := conditions ++ q.tags.map fun kv => Condition.tagEq kv.1 kv.2
  let q := defaultTimeWindow cfg now q
  let conditions := conditions
    ++ [Condition.datehourBetween q.startTimeMin q.startTimeMax]
    ++ [Condition.startTimeBetween q.startTimeMin q.startTimeMax]
  let conditions :=
    if q.durationMin ≠ 0 ∧ q.durationMax ≠ 0 then
      conditions ++ [Condition.durationBetween q.durationMin q.durationMax]
    else if q.durationMin ≠ 0 then
      conditions ++ [Condition.durationGe q.durationMin]
    else if q.durationMax ≠ 0 then
      conditions ++ [Condition.durationLe q.durationMax]
    else conditions
  (conditions, q)

/-- Reader.FindTraces phase 2 (reader.go lines 209-230): after phase 1
has run (mutating the shared query), the defaulting is re-applied and the
span-details query restricts datehour to the window widened by
maxTraceDuration on both sides, over the phase-1 trace ids. -/
def findTracesSpanConditions (cfg : ReaderCfg) (now : Time)
    (q0 : TraceQueryParameters) (traceIDs : List String) : List Condition :=
  let q := (findTraceIDsConditions cfg now q0).2
  let q := defaultTimeWindow cfg now q
  [Condition.datehourBetween (q.startTimeMin - cfg.maxTraceDuration)
      (q.startTimeMax + cfg.maxTraceDuration),
    Condition.traceIdIn traceIDs]

/-- Claim C6: the phase-2 datehour predicate of FindTraces spans the
caller window widened by maxTraceDuration on both sides, where a zero
start-time-min defaults to now - maxSpanAge and a zero start-time-max
defaults to now. -/
theorem findTraces_phase2_window (cfg : ReaderCfg) (now : Time)
    (q : TraceQueryParameters) (traceIDs : List String) :
    findTracesSpanConditions cfg now q traceIDs =
      [Condition.datehourBetween
          ((if q.startTimeMin = 0 then now - cfg.maxSpanAge
            else q.startTimeMin) - cfg.maxTraceDuration)
          ((if q.startTimeMax = 0 then now
            else q.startTimeMax) + cfg.maxTraceDuration),
        Condition.traceIdIn traceIDs] := by
  simp only [findTracesSpanConditions, findTraceIDsConditions,
    defaultTimeWindow, defaultMinTime, defaultMaxTime]
  by_cases hmin : q.startTimeMin = 0 <;>
    by_cases hmax : q.startTimeMax = 0 <;>
      simp [hmin, hmax]

/-! ## Reader row handling: not found versus empty

From plugin/s3spanstore/reader.go.  The Athena round trip itself is
abstracted away: each model takes the result rows the queries would
deliver and performs the row handling logic of the source. -/

/-- Reader errors distinguished by the row handling code. -/
inductive ReadError where
  | traceNotFound
  | decodeFailure
deriving Repr, DecidableEq

/-- Reader.GetTrace row handling (reader.go lines 109-128): rows carry
the span_payload column, dec is DecodeSpanPayload.  Zero rows yield the
distinguished spanstore.ErrTraceNotFound; otherwise every payload is
decoded and the spans are returned as one trace. -/
def getTraceFromRows {Span : Type} (dec : String → Option Span)
    (rows : List String) : Except ReadError (List Span) :=
  if rows.length = 0 then .error .traceNotFound
  else
    match rows.mapM dec with
    | none => .error .decodeFailure
    | some spans => .ok spans

/-- Reader.findTraceIDs row handling (reader.go lines 326-339): zero
rows yield a nil slice and a nil error; otherwise the trace_id column
values are returned. -/
def findTraceIDsFromRows (rows : List String) : List String :=
  if rows.length = 0 then [] else rows

/-- Reader.FindTraceIDs (reader.go lines 262-287): a nil phase-1 result
short-circuits to a nil slice and nil error, otherwise each id is parsed
(model.TraceIDFromString may fail). -/
def findTraceIDsResult {TraceID : Type} (parse : String → Option TraceID)
    (phase1Rows : List String) : Except ReadError (List TraceID) :=
  let traceIDStrings := findTraceIDsFromRows phase1Rows
  if traceIDStrings.length = 0 then .ok []
  else
    match traceIDStrings.mapM parse with
    | none => .error .decodeFailure
    | some ids => .ok ids

/-- The grouping of phase-2 rows (trace_id, decoded span) into traces
(reader.go lines 235-257), keeping first-appearance order of trace ids in
place of the Go map iteration order. -/
def groupSpansByTraceId {Span : Type} (acc : List (String × List Span)) :
    List (String × Span) → List (String × List Span)
  | [] => acc
  | (traceId, span) :: rest =>
    match assocGet acc traceId with
    | none => groupSpansByTraceId (acc ++ [(traceId, [span])]) rest
    | some spans => groupSpansByTraceId (assocAdd acc traceId (spans ++ [span])) rest

/-- Reader.FindTraces result assembly (reader.go lines 204-259) given
the phase-1 trace_id rows and the phase-2 (trace_id, span_payload) rows;
dec is DecodeSpanPayload.  Phase 2 runs whether or not phase 1 matched
anything. -/
def findTracesResult {Span : Type} (dec : String → Option Span)
    (phase1Rows : List String) (phase2Rows : List (String × String)) :
    Except ReadError (List (List Span)) :=
  let _traceIDs := findTraceIDsFromRows phase1Rows
  match phase2Rows.mapM (fun rv => (dec rv.2).map fun s => (rv.1, s)) with
  | none => .error .decodeFailure
  | some decoded => .ok ((groupSpansByTraceId [] decoded).map fun g => g.2)

/-- Claim C7: with no matching rows, GetTrace returns the distinguished
trace-not-found error while FindTraces and FindTraceIDs return an empty
result with no error. -/
theorem noRows_notFound_vs_empty {Span TraceID : Type}
    (dec : String → Option Span) (parse : String → Option TraceID) :
    getTraceFromRows dec [] = .error .traceNotFound ∧
    findTracesResult dec [] [] = .ok [] ∧
    findTraceIDsResult parse [] = .ok [] := by
  refine ⟨rfl, rfl, rfl⟩

/-! ## Parquet object keys

From plugin/s3spanstore/parquet_writer.go lines 16-37 and 109-111.
time.Time is reduced to the four fields the PARTION_FORMAT layout
2006/01/02/15 reads, each component zero-padded to its width (the model
covers years below 10000, where the Go layout pads the year to exactly
four digits).  math/rand Intn is modelled by a stream of naturals reduced
modulo the alphabet size, mirroring the Intn contract of returning a
value below its argument. -/

/-- The calendar fields of a time.Time that PARTION_FORMAT renders. -/
structure DateHour where
  year : Nat
  month : Nat
  day : Nat
  hour : Nat
deriving Repr, DecidableEq

/-- The decimal digit character of n mod 10. -/
def digitChar (n : Nat) : Char := Char.ofNat (48 + n % 10)

/-- Two-digit zero-padded rendering (layout fragments 01, 02, 15). -/
def pad2 (n : Nat) : String := String.mk [digitChar (n / 10), digitChar n]

/-- Four-digit zero-padded rendering (layout fragment 2006). -/
def pad4 (n : Nat) : String :=
  String.mk [digitChar (n / 1000), digitChar (n / 100), digitChar (n / 10),
    digitChar n]

/-- S3PartitionKey: t.Format(PARTION_FORMAT) (parquet_writer.go lines
35-37). -/
def S3PartitionKey (t : DateHour) : String :=
  pad4 t.year ++ "/" ++ pad2 t.month ++ "/" ++ pad2 t.day ++ "/"
    ++ pad2 t.hour

/-- The alphabet letterBytes (parquet_writer.go line 21). -/
def letterBytes : String :=
  "abcdefghijklmnopqrstuvwxyzABCDEFGHIJKLMNOPQRSTUVWXYZ"

/-- RandStringBytes (parquet_writer.go lines 23-29); randIntn i models
the i-th rand.Intn(len(letterBytes)) draw. -/
def RandStringBytes (randIntn : Nat → Nat) (n : Nat) : String :=
  String.mk ((List.range n).map fun i =>
    letterBytes.toList.get
      ⟨randIntn i % letterBytes.toList.length, Nat.mod_lt _ (by decide)⟩)

/-- S3ParquetKey (parquet_writer.go lines 31-33): the configured prefix
is concatenated verbatim, with no separator of its own. -/
def S3ParquetKey (pfx suffix datehour : String) : String :=
  pfx ++ datehour ++ "/" ++ suffix ++ ".parquet"

/-- ParquetWriter.parquetKey (parquet_writer.go lines 109-111) for the
partition of one written row, with Write deriving datehour from the row
time (lines 150-156). -/
def parquetKey (pfx : String) (randIntn : Nat → Nat) (t : DateHour) :
    String :=
  S3ParquetKey pfx (RandStringBytes randIntn 32) (S3PartitionKey t)

theorem randStringBytes_length (randIntn : Nat → Nat) (n : Nat) :
    (RandStringBytes randIntn n).length = n := by
  show ((List.range n).map _).length = n
  rw [List.length_map, List.length_range]

theorem randStringBytes_mem_alphabet (randIntn : Nat → Nat) (n : Nat) :
    ∀ c ∈ (RandStringBytes randIntn n).toList, c ∈ letterBytes.toList := by
  intro c hc
  have hc2 : c ∈ (List.range n).map fun i =>
      letterBytes.toList.get
        ⟨randIntn i % letterBytes.toList.length, Nat.mod_lt _ (by decide)⟩ := hc
  simp only [List.mem_map] at hc2
  obtain ⟨i, _, rfl⟩ := hc2
  exact List.get_mem _ _ _

theorem digitChar_isDigit (n : Nat) : (digitChar n).isDigit = true := by
  have h : n % 10 < 10 := Nat.mod_lt _ (by norm_num)
  rw [show digitChar n = Char.ofNat (48 + n % 10) from rfl]
  set m := n % 10 with hm
  interval_cases m <;> decide

/-- Claim C8 counterexample: with the legal configuration prefix p (no
trailing slash) the produced key runs the prefix into the partition key
with no separator, so it does not have the claimed
prefix-slash-partition-slash-suffix shape for any 32-character suffix. -/
theorem parquetKey_shape_counterexample :
    ¬ ∃ suffix : String, suffix.length = 32 ∧
      parquetKey "p" (fun _ => 0) ⟨2017, 1, 26, 16⟩
        = "p" ++ "/" ++ S3PartitionKey ⟨2017, 1, 26, 16⟩ ++ "/" ++ suffix
          ++ ".parquet" := by
  rintro ⟨suffix, hlen, heq⟩
  have hl := congrArg String.length heq
  have hkey : (parquetKey "p" (fun _ => 0) ⟨2017, 1, 26, 16⟩).length = 55 := by
    decide
  rw [hkey] at hl
  simp only [String.length_append, hlen] at hl
  have hpk : (S3PartitionKey ⟨2017, 1, 26, 16⟩).length = 13 := by decide
  rw [hpk] at hl
  exact absurd hl (by decide)

/-- Claim C8 (amended): every key the partitioned writer produces is the
configured prefix, followed immediately by the yyyy/MM/dd/HH partition
key of the row time, a slash, a 32-character suffix drawn from the
letterBytes alphabet, and the .parquet extension; the partition key is
thirteen characters, slash-separated four-two-two-two decimal digit
groups.  The spec shape prefix/yyyy/MM/dd/HH/random32.parquet is obtained
exactly when the configured prefix ends with a slash. -/
theorem parquetKey_shape (pfx : String) (randIntn : Nat → Nat)
    (t : DateHour) :
    parquetKey pfx randIntn t
      = pfx ++ S3PartitionKey t ++ "/" ++ RandStringBytes randIntn 32
        ++ ".parquet" ∧
    (RandStringBytes randIntn 32).length = 32 ∧
    (∀ c ∈ (RandStringBytes randIntn 32).toList, c ∈ letterBytes.toList) ∧
    (S3PartitionKey t).length = 13 ∧
    ∃ yyyy MM dd HH : String,
      S3PartitionKey t = yyyy ++ "/" ++ MM ++ "/" ++ dd ++ "/" ++ HH ∧
      yyyy.length = 4 ∧ MM.length = 2 ∧ dd.length = 2 ∧ HH.length = 2 ∧
      ∀ c ∈ (yyyy ++ MM ++ dd ++ HH).toList, c.isDigit = true := by
  refine ⟨rfl, randStringBytes_length randIntn 32,
    randStringBytes_mem_alphabet randIntn 32, ?_,
    pad4 t.year, pad2 t.month, pad2 t.day, pad2 t.hour, rfl, rfl, rfl, rfl,
    rfl, ?_⟩
  · show (S3PartitionKey t).toList.length = 13
    have hdata : (S3PartitionKey t).toList
        = [digitChar (t.year / 1000), digitChar (t.year / 100),
          digitChar (t.year / 10), digitChar t.year, '/',
          digitChar (t.month / 10), digitChar t.month, '/',
          digitChar (t.day / 10), digitChar t.day, '/',
          digitChar (t.hour / 10), digitChar t.hour] := by
      simp [S3PartitionKey, pad4, pad2, String.toList]
    rw [hdata]
    rfl
  · intro c hc
    have hc2 : c ∈ [digitChar (t.year / 1000), digitChar (t.year / 100),
        digitChar (t.year / 10), digitChar t.year,
        digitChar (t.month / 10), digitChar t.month,
        digitChar (t.day / 10), digitChar t.day,
        digitChar (t.hour / 10), digitChar t.hour] := by
      have : (pad4 t.year ++ pad2 t.month ++ pad2 t.day ++ pad2 t.hour).toList
          = [digitChar (t.year / 1000), digitChar (t.year / 100),
            digitChar (t.year / 10), digitChar t.year,
            digitChar (t.month / 10), digitChar t.month,
            digitChar (t.day / 10), digitChar t.day,
            digitChar (t.hour / 10), digitChar t.hour] := by
        simp [pad4, pad2, String.toList]
      rwa [this] at hc
    simp only [List.mem_cons, List.not_mem_nil, or_false] at hc2
    rcases hc2 with h | h | h | h | h | h | h | h | h | h <;>
      (subst h; exact digitChar_isDigit _)

/-! ## Partitioned writer open-writer set

From plugin/s3spanstore/parquet_writer.go lines 85-165.  The open-writer
map parquetWriterRefs is an association list from partition key to a
numeric writer identity; nextRef counts the writer instances ever
created, so distinct creations get distinct identities.  Write and
rotateParquetWriters both run their map accesses under bufferMutex, so
their effects interleave atomically and are modelled as state
transformers. -/

/-- The mutex-protected state of a ParquetWriter. -/
structure ParquetWriterState where
  parquetWriterRefs : List (String × Nat)
  nextRef : Nat
deriving Repr, DecidableEq

/-- ParquetWriter.getParquetWriter (parquet_writer.go lines 85-107):
reuse the open writer of the partition if present, otherwise create one
and record it. -/
def getParquetWriter (st : ParquetWriterState) (datehour : String) :
    Nat × ParquetWriterState :=
  match assocGet st.parquetWriterRefs datehour with
  | some ref => (ref, st)
  | none =>
    (st.nextRef,
      ⟨st.parquetWriterRefs ++ [(datehour, st.nextRef)], st.nextRef + 1⟩)

/-- ParquetWriter.rotateParquetWriters (parquet_writer.go lines
129-138): under the mutex the open-writer set is swapped for an empty
map; the swapped writers are then finalized outside the lock. -/
def rotateParquetWriters (st : ParquetWriterState) :
    List (String × Nat) × ParquetWriterState :=
  (st.parquetWriterRefs, ⟨[], st.nextRef⟩)

/-- Well-formedness of the writer state: one entry per partition key and
every recorded writer identity below the creation counter. -/
def WFWriterState (st : ParquetWriterState) : Prop :=
  (st.parquetWriterRefs.map Prod.fst).Nodup ∧
    ∀ p ∈ st.parquetWriterRefs, p.2 < st.nextRef

instance (st : ParquetWriterState) : Decidable (WFWriterState st) := by
  unfold WFWriterState
  infer_instance

theorem assocGet_none_not_mem {β : Type} (l : List (String × β)) (k : String)
    (h : assocGet l k = none) : k ∉ l.map Prod.fst := by
  induction l with
  | nil => simp
  | cons hd tl ih =>
    obtain ⟨k1, v1⟩ := hd
    by_cases hk : k1 = k
    · simp [assocGet, hk] at h
    · simp only [assocGet, hk, if_false] at h
      simp [ih h, Ne.symm hk]

/-- Claim C9: Write reuses the one open writer of its partition when
present and creates one only when absent (keeping one writer per
partition and well-formedness), and rotation swaps the whole set out so
that a write landing after the swap gets a writer distinct from every
writer being finalized. -/
theorem parquet_writer_one_per_partition (st : ParquetWriterState)
    (datehour : String) (hwf : WFWriterState st) :
    WFWriterState (getParquetWriter st datehour).2 ∧
    ((getParquetWriter st datehour).2.parquetWriterRefs.map Prod.fst).Nodup ∧
    (∀ ref, assocGet st.parquetWriterRefs datehour = some ref →
      getParquetWriter st datehour = (ref, st)) ∧
    (assocGet st.parquetWriterRefs datehour = none →
      (getParquetWriter st datehour).2.parquetWriterRefs
        = st.parquetWriterRefs ++ [(datehour, st.nextRef)]) ∧
    WFWriterState (rotateParquetWriters st).2 ∧
    (∀ p ∈ (rotateParquetWriters st).1,
      (getParquetWriter (rotateParquetWriters st).2 datehour).1 ≠ p.2) := by
  obtain ⟨hnodup, hlt⟩ := hwf
  have hwf2 : WFWriterState (getParquetWriter st datehour).2 := by
    rcases hget : assocGet st.parquetWriterRefs datehour with _ | ref
    · refine ⟨?_, ?_⟩
      · simp only [getParquetWriter, hget]
        simp only [List.map_append, List.map_cons, List.map_nil]
        rw [List.nodup_append]
        refine ⟨hnodup, by simp, ?_⟩
        intro a ha
        simp only [List.mem_cons, List.not_mem_nil, or_false]
        intro hb
        subst hb
        exact absurd ha (assocGet_none_not_mem _ _ hget)
      · simp only [getParquetWriter, hget]
        intro p hp
        simp only [List.mem_append, List.mem_cons, List.not_mem_nil,
          or_false] at hp
        rcases hp with hp | hp
        · exact Nat.lt_succ_of_lt (hlt p hp)
        · subst hp
          exact Nat.lt_succ_self _
    · simpa [getParquetWriter, hget] using ⟨hnodup, hlt⟩
  refine ⟨hwf2, hwf2.1, ?_, ?_, ?_, ?_⟩
  · intro ref hget
    simp [getParquetWriter, hget]
  · intro hget
    simp [getParquetWriter, hget]
  · refine ⟨?_, ?_⟩
    · show (List.map Prod.fst ([] : List (String × Nat))).Nodup
      simp
    · intro p hp
      simp only [rotateParquetWriters] at hp
      exact absurd hp (List.not_mem_nil p)
  · intro p hp
    have hid : (getParquetWriter (rotateParquetWriters st).2 datehour).1
        = st.nextRef := by
      simp [getParquetWriter, rotateParquetWriters, assocGet]
    rw [hid]
    exact Nat.ne_of_gt (hlt p hp)

/-- Witness for parquet_writer_one_per_partition at a concrete
single-writer state. -/
theorem parquet_writer_one_per_partition_witness :
    WFWriterState ⟨[("2017/01/26/16", 0)], 1⟩ ∧
    WFWriterState
      (getParquetWriter ⟨[("2017/01/26/16", 0)], 1⟩ "2017/01/26/17").2 :=
  ⟨by decide,
    (parquet_writer_one_per_partition ⟨[("2017/01/26/16", 0)], 1⟩
      "2017/01/26/17" (by decide)).1⟩

end JaegerS3
